import Mathlib

/-!
Verification of the speculative prefetch and de-duplication buffer of the
KRIAA repository (src/screens/GameLetters.tsx, buffered variant).

The component is a React component whose core logic lives in the async
function `fillBuffer`, together with the level-change effect, the failure
handler, the retry handler and the selection handler.  All of its mutable
state lives in refs (`bufferRef`, `usedWordsRef`, `isFetchingRef`,
`activeLevelRef`) and the React state `currentQ` / `error`.

We embed the component as a small-step state machine: every `await` in
`fillBuffer` is a suspension point, and the scheduler (the adversary) picks
which suspended continuation to resume next.  Each in-flight `fillBuffer`
invocation is represented by the stage it is suspended at, together with the
values its JavaScript closure captured at the render that created it
(the `level` prop and the `currentQ` state value); the code reads both of
these from the closure, not from live state, which the embedding reproduces.
-/

set_option maxHeartbeats 1000000

namespace KRIAA

/-- One entry of `LetterQuestion.options` (src/types.ts): a word, a
correctness flag and an image prompt. -/
structure LetterOption where
  word : String
  isCorrect : Bool
  imagePrompt : String
  deriving DecidableEq

/-- `LetterQuestion` from src/types.ts. -/
structure LetterQuestion where
  targetLetter : String
  questionText : String
  options : List LetterOption
  deriving DecidableEq

/-- `PreparedQuestion` from GameLetters.tsx: the generated question plus the
per-option image seeds generated at preparation time. -/
structure PreparedQuestion where
  data : LetterQuestion
  seeds : List String
  deriving DecidableEq

/-- The values a `fillBuffer` closure captured at the render that created it:
the `level` prop and the `currentQ` state value of that render.  The code
reads `level` (staleness check, line 91) and `currentQ` (failure check,
line 133) from the closure, not from live state. -/
structure FillClos where
  level : Nat
  currentQ : Option PreparedQuestion
  deriving DecidableEq

/-- The suspension stage of one in-flight `fillBuffer` pass:
either awaiting `generateLetterQuestion` (line 88) with the exclusion
snapshot it passed to the request, or awaiting the `Promise.all` of the
image preloads (line 111) with the prepared question it will push. -/
inductive FetchStage where
  | awaitGen (clos : FillClos) (snapshot : Finset String)
  | awaitGate (clos : FillClos) (prepared : PreparedQuestion)
  deriving DecidableEq

/-- The browser's outcome for one image load attempt. -/
inductive LoadOutcome where
  | loaded
  | failed
  deriving DecidableEq

/-- `preloadImage` from GameLetters.tsx lines 19-26: the promise executor
installs `img.onload = () => resolve()` and `img.onerror = () => resolve()`;
`reject` is never invoked.  So whatever the browser's outcome for the
resource, the promise settles successfully.  (The `src` argument only feeds
the browser and does not influence settling, so it is not a parameter.) -/
def preloadImage (outcome : LoadOutcome) : Except String Unit :=
  match outcome with
  | .loaded => .ok ()
  | .failed => .ok ()

/-- `Promise.all` semantics over an already-settled list: resolves with the
list of results once every entry has settled, rejects with the first
rejection if any entry rejected. -/
def promiseAll : List (Except String Unit) → Except String (List Unit)
  | [] => .ok []
  | .ok a :: rest =>
    match promiseAll rest with
    | .ok as_ => .ok (a :: as_)
    | .error e => .error e
  | .error e :: _ => .error e

/-- `BUFFER_TARGET` from GameLetters.tsx line 48. -/
def BUFFER_TARGET : Nat := 4

/-- The component state: `activeLevel` is `activeLevelRef.current`,
`buffer` is `bufferRef.current`, `usedWords` is `usedWordsRef.current`,
`isFetching` is `isFetchingRef.current`, `currentQ` and `errorFlag` are the
React state.  `inflight` holds the suspended `fillBuffer` continuations,
`timeouts` the pending `setTimeout(fillBuffer, 100)` callbacks (each carries
the closure it will invoke).  `genRequests` instruments the machine with the
log of exclusion snapshots passed to `generateLetterQuestion` by the current
session (it is not part of the program state; it records the arguments of
the Content Source calls the session has issued). -/
structure GState where
  activeLevel : Nat
  buffer : List PreparedQuestion
  usedWords : Finset String
  isFetching : Bool
  currentQ : Option PreparedQuestion
  errorFlag : Bool
  inflight : List FetchStage
  timeouts : List FillClos
  genRequests : List (Finset String)

/-- The state of the component at mount, before the initial effect runs:
all refs at their initial values, no state, nothing in flight. -/
def initState : GState :=
  { activeLevel := 0
    buffer := []
    usedWords := ∅
    isFetching := false
    currentQ := none
    errorFlag := false
    inflight := []
    timeouts := []
    genRequests := [] }

/-- The synchronous prefix of `fillBuffer` (lines 75-88): return immediately
if the buffer already holds `BUFFER_TARGET` items or a fetch is in progress;
otherwise set the fetch flag, snapshot the exclusion set
(`Array.from(usedWordsRef.current)`, line 86) and issue the generation
request, leaving the pass suspended at the `await` of line 88. -/
def fillBufferStart (s : GState) (clos : FillClos) : GState :=
  if BUFFER_TARGET ≤ s.buffer.length ∨ s.isFetching then s
  else
    { s with
      isFetching := true
      inflight := s.inflight ++ [.awaitGen clos s.usedWords]
      genRequests := s.genRequests ++ [s.usedWords] }

/-- Lines 96-101 of `fillBuffer`: `q.options.find(o => o.isCorrect)?.word`
followed by the JavaScript truthiness guard `if (correctWord)`.  The guard
skips the add both when no option is marked correct (`find` returns
`undefined`) and when the correct option's word is the empty string (a
falsy value). -/
def correctWordAdd (q : LetterQuestion) (used : Finset String) : Finset String :=
  match (q.options.find? (fun o => o.isCorrect)).map (fun o => o.word) with
  | some w => if w = "" then used else insert w used
  | none => used

/-- The `finally` block of `fillBuffer` (lines 136-143): clear the fetch
flag, and if the buffer is still below target and the active level still
equals the closure's level, schedule `setTimeout(fillBuffer, 100)` — which
will re-invoke the same closure. -/
def finallyStep (s : GState) (clos : FillClos) : GState :=
  { s with
    isFetching := false
    timeouts :=
      if s.buffer.length < BUFFER_TARGET ∧ s.activeLevel = clos.level then
        s.timeouts ++ [clos]
      else s.timeouts }

/-- Resumption of in-flight pass `i` when `generateLetterQuestion` resolves
with question `q` (lines 88-111).  First the staleness check of line 91:
if `activeLevelRef.current !== level` (the closure's level) the pass clears
the flag and returns (the `finally` block then runs but schedules nothing,
since its level test fails for the same reason).  Otherwise the speculative
exclusion add of lines 96-101 runs, the per-option seeds of line 105 are
generated (supplied here by the scheduler), and the pass suspends at the
`Promise.all` of line 111 holding the prepared question. -/
def stepGenOk (s : GState) (i : Nat) (q : LetterQuestion) (seeds : List String) : GState :=
  match s.inflight[i]? with
  | some (.awaitGen clos _snap) =>
    if s.activeLevel ≠ clos.level then
      { s with isFetching := false, inflight := s.inflight.eraseIdx i }
    else
      { s with
        usedWords := correctWordAdd q s.usedWords
        inflight := s.inflight.set i (.awaitGate clos ⟨q, seeds⟩) }
  | _ => s

/-- Resumption of in-flight pass `i` when `generateLetterQuestion` rejects:
the `catch` block of lines 129-135 sets the error state if the buffer is
empty and the closure's captured `currentQ` is empty (the code reads the
closure variable `currentQ`, not the live state — its own comment at lines
118-120 notes the closure cannot be trusted), then the `finally` block
runs. -/
def stepGenFail (s : GState) (i : Nat) : GState :=
  match s.inflight[i]? with
  | some (.awaitGen clos _snap) =>
    finallyStep
      { s with
        inflight := s.inflight.eraseIdx i
        errorFlag := s.errorFlag || (s.buffer.isEmpty && clos.currentQ.isNone) }
      clos
  | _ => s

/-- Resumption of in-flight pass `i` when the `Promise.all` of the image
preloads settles, with `outcomes` the browser outcomes of the individual
loads (lines 111-127).  If the gate resolved (it always does, since
`preloadImage` never rejects), the prepared question is pushed onto the
buffer and the functional state update `setCurrentQ(prev => ...)` pops the
front of the buffer if the live current question is empty.  No staleness
check is performed at this resumption point.  The rejection branch (dead
code, kept for faithfulness to the `catch`) behaves like a generation
failure.  Then the `finally` block runs. -/
def stepGateResolve (s : GState) (i : Nat) (outcomes : List LoadOutcome) : GState :=
  match s.inflight[i]? with
  | some (.awaitGate clos prep) =>
    match promiseAll (outcomes.map preloadImage) with
    | .ok _ =>
      let s1 := { s with inflight := s.inflight.eraseIdx i }
      let buf1 := s1.buffer ++ [prep]
      let s2 :=
        match s1.currentQ with
        | none => { s1 with currentQ := buf1.head?, buffer := buf1.tail }
        | some _ => { s1 with buffer := buf1 }
      finallyStep s2 clos
    | .error _ =>
      finallyStep
        { s with
          inflight := s.inflight.eraseIdx i
          errorFlag := s.errorFlag || (s.buffer.isEmpty && clos.currentQ.isNone) }
        clos
  | _ => s

/-- Firing of pending `setTimeout` callback `i`: removes it and invokes
`fillBuffer` with the closure it holds. -/
def stepTimeoutFire (s : GState) (i : Nat) : GState :=
  match s.timeouts[i]? with
  | some clos => fillBufferStart { s with timeouts := s.timeouts.eraseIdx i } clos
  | none => s

/-- The level-change effect (lines 51-64): reset the active level, the
buffer, the exclusion set, the current question, the selection, the error
state and the fetch flag, then call `fillBuffer`.  The closure invoked is
the one of the render in which the level changed, so its captured
`currentQ` is the pre-reset value.  In-flight passes and pending timeouts
are not (and cannot be) cancelled.  The instrumentation log of generation
requests restarts for the new session. -/
def stepLevelChange (s : GState) (l : Nat) : GState :=
  fillBufferStart
    { s with
      activeLevel := l
      buffer := []
      usedWords := ∅
      currentQ := none
      errorFlag := false
      isFetching := false
      genRequests := [] }
    ⟨l, s.currentQ⟩

/-- The queue-pop part of `loadNextQuestion` (lines 146-158): shift the
buffer; if an item came out it becomes current, otherwise current becomes
empty.  (The `fillBuffer()` call it then makes is a separate
`startFill` event.) -/
def stepConsumePop (s : GState) : GState :=
  match s.buffer with
  | next :: rest => { s with currentQ := some next, buffer := rest }
  | [] => { s with currentQ := none }

/-- `handleRetry` (lines 202-205): clear the error state and call
`fillBuffer` with the current render's closure. -/
def stepRetryFill (s : GState) (clos : FillClos) : GState :=
  fillBufferStart { s with errorFlag := false } clos

/-- The scheduler's alphabet: top-level `fillBuffer` invocations, resolution
or rejection of an outstanding generation request, settling of an
outstanding media gate, firing of a pending timeout, a level change, a
queue pop, and a retry. -/
inductive GEvent where
  | startFill (clos : FillClos)
  | genOk (i : Nat) (q : LetterQuestion) (seeds : List String)
  | genFail (i : Nat)
  | gateResolve (i : Nat) (outcomes : List LoadOutcome)
  | timeoutFire (i : Nat)
  | levelChange (l : Nat)
  | consumePop
  | retryFill (clos : FillClos)

/-- One scheduler step. -/
def step (s : GState) : GEvent → GState
  | .startFill clos => fillBufferStart s clos
  | .genOk i q seeds => stepGenOk s i q seeds
  | .genFail i => stepGenFail s i
  | .gateResolve i outcomes => stepGateResolve s i outcomes
  | .timeoutFire i => stepTimeoutFire s i
  | .levelChange l => stepLevelChange s l
  | .consumePop => stepConsumePop s
  | .retryFill clos => stepRetryFill s clos

/-- Running a sequence of scheduler events. -/
def run (s : GState) : List GEvent → GState
  | [] => s
  | e :: es => run (step s e) es

/-- Number of outstanding Content Source generation requests: in-flight
passes suspended at the `generateLetterQuestion` await. -/
def outstandingGen (s : GState) : Nat :=
  (s.inflight.filter fun f =>
    match f with
    | .awaitGen _ _ => true
    | .awaitGate _ _ => false).length

/-- An event is reset-safe in state `s` when it is not a level change
performed while a fetch pass is still in flight. -/
def eventSafe (s : GState) : GEvent → Bool
  | .levelChange _ => s.inflight.isEmpty
  | _ => true

/-- A trace is reset-safe when every level change in it happens at a moment
with no fetch pass in flight. -/
def safeRun (s : GState) : List GEvent → Bool
  | [] => true
  | e :: es => eventSafe s e && safeRun (step s e) es

/-- Whether an event is a level change (session reset). -/
def isLevelChange : GEvent → Bool
  | .levelChange _ => true
  | _ => false

/-- A trace stays within one session: it contains no level change. -/
def inSession (tr : List GEvent) : Bool :=
  tr.all fun e => !isLevelChange e

/-- The coordinator invariant maintained as long as no session reset happens
while a fetch pass is in flight: the fetch flag is set exactly while a pass
is in flight, at most one pass is in flight, and the buffer plus the
in-flight pass never exceed the target. -/
def Inv (s : GState) : Prop :=
  s.isFetching = !s.inflight.isEmpty ∧
  s.inflight.length ≤ 1 ∧
  s.buffer.length + s.inflight.length ≤ BUFFER_TARGET

/-!
The selection handler (`handleSelect`, GameLetters.tsx lines 161-200) is
embedded as its own small machine.  Its state is the displayed question, the
`selected` state, whether a wrong-answer timeout (line 195, which re-enables
selection after 1000ms) is pending, and how many times `onComplete(true)`
has been signalled to the parent (the parent's `handleGameComplete` treats
each such signal as session completion and unmounts the game, so the code's
target correct-count is 1).  The correct branch's two nested timeouts only
speak and then fire `onComplete(true)` once; since `selected` stays occupied
from the moment of the correct selection, no other selection can interleave,
so the completion signal is modelled at the selection step itself.
-/

/-- State of the selection handler. -/
structure SelState where
  currentQ : Option PreparedQuestion
  selected : Option Nat
  pendingWrongClear : Bool
  completeCalls : Nat
  deriving DecidableEq

/-- Selection-handler state when a question is on display and no selection
has been made. -/
def selInit (q : PreparedQuestion) : SelState :=
  { currentQ := some q, selected := none, pendingWrongClear := false, completeCalls := 0 }

/-- `handleSelect` (lines 161-200): ignore the tap if no question is shown
or a selection is already active; otherwise record the selection; if the
tapped option is correct, the completion signal `onComplete(true)` is fired
(once — `selected` stays occupied, so nothing else can run first); if it is
wrong, a timeout that will clear the selection is scheduled. -/
def handleSelect (s : SelState) (index : Nat) : SelState :=
  match s.currentQ with
  | none => s
  | some q =>
    match s.selected with
    | some _ => s
    | none =>
      match q.data.options[index]? with
      | none => s
      | some opt =>
        if opt.isCorrect then
          { s with selected := some index, completeCalls := s.completeCalls + 1 }
        else
          { s with selected := some index, pendingWrongClear := true }

/-- Firing of the wrong-answer timeout (lines 195-198): clears the
selection so the user can try again. -/
def wrongClearFire (s : SelState) : SelState :=
  if s.pendingWrongClear then
    { s with selected := none, pendingWrongClear := false }
  else s

/-- Events of the selection handler: a tap on option `i`, or the firing of
the pending wrong-answer timeout. -/
inductive SelEvent where
  | select (i : Nat)
  | clearFire

/-- One selection-handler step. -/
def selStep (s : SelState) : SelEvent → SelState
  | .select i => handleSelect s i
  | .clearFire => wrongClearFire s

/-- Running a sequence of selection-handler events. -/
def selRun (s : SelState) : List SelEvent → SelState
  | [] => s
  | e :: es => selRun (selStep s e) es

/-- Whether an event is an effective correct selection in state `s`: a tap
that passes the guards and hits an option marked correct (an
`advance(true)` in the spec's vocabulary). -/
def selectHit (s : SelState) (e : SelEvent) : Bool :=
  match e with
  | .select i =>
    match s.currentQ, s.selected with
    | some q, none =>
      match q.data.options[i]? with
      | some opt => opt.isCorrect
      | none => false
    | _, _ => false
  | .clearFire => false

/-- Whether a trace contains an effective correct selection. -/
def effectiveCorrect (s : SelState) : List SelEvent → Bool
  | [] => false
  | e :: es => selectHit s e || effectiveCorrect (selStep s e) es

/-!
The image URL pipeline (claim C10).  `encodeURIComponent` is a browser
builtin external to the repository, so it is a parameter `enc`; both use
sites apply the same `getImageUrl`, so the identity below holds for every
`enc`.
-/

/-- `getImageUrl` (GameLetters.tsx lines 14-16). -/
def getImageUrl (enc : String → String) (prompt seed : String) : String :=
  "https://image.pollinations.ai/prompt/cute%20colorful%203d%20render%20cartoon%20of%20"
    ++ enc prompt
    ++ "?width=100&height=100&nologo=true&seed=" ++ seed

/-- The URLs passed to `preloadImage` at lines 106-108:
`q.options.map((opt, i) => preloadImage(getImageUrl(opt.imagePrompt, seeds[i])))`,
where `seeds` was just built from `q.options.map`, so it pairs each option
with its seed. -/
def preloadUrls (enc : String → String) (q : LetterQuestion) (seeds : List String) : List String :=
  List.zipWith (fun opt sd => getImageUrl enc opt.imagePrompt sd) q.options seeds

/-- The `src` rendered for option `idx` at lines 263-267:
`getImageUrl(opt.imagePrompt, currentQ.seeds[idx])`, reading the seed stored
in the displayed `PreparedQuestion` (nothing is rendered for an index with
no option or no seed). -/
def renderImageSrc (enc : String → String) (p : PreparedQuestion) (idx : Nat) : Option String :=
  match p.data.options[idx]?, p.seeds[idx]? with
  | some opt, some sd => some (getImageUrl enc opt.imagePrompt sd)
  | _, _ => none

/-! ### Concrete sample data used by witnesses and counterexamples -/

/-- A sample generated question whose correct option is "apple". -/
def sampleQA : LetterQuestion := ⟨"a", "qa", [⟨"apple", true, "an apple"⟩]⟩

/-- A sample generated question whose correct option is "banana". -/
def sampleQB : LetterQuestion := ⟨"b", "qb", [⟨"banana", true, "a banana"⟩]⟩

/-- A sample generated question with no option marked correct. -/
def sampleQN : LetterQuestion := ⟨"c", "qc", [⟨"car", false, "a car"⟩]⟩

/-- A sample generated question whose correct option has the empty string as
its word. -/
def sampleQE : LetterQuestion := ⟨"e", "qe", [⟨"", true, "a mystery"⟩]⟩

/-- A state with one generation request outstanding for the live session
(the closure's level matches the active level). -/
def genPendingState : GState :=
  { initState with
    activeLevel := 1
    isFetching := true
    inflight := [.awaitGen ⟨1, none⟩ ∅] }

/-- A state with one media-gate pass outstanding for the live session. -/
def gatePendingState : GState :=
  { initState with
    activeLevel := 1
    isFetching := true
    inflight := [.awaitGate ⟨1, none⟩ ⟨sampleQA, ["s1"]⟩] }

/-- A state with one generation request outstanding that belongs to a
superseded session (the closure's level differs from the active level). -/
def staleGenState : GState :=
  { initState with
    activeLevel := 2
    isFetching := true
    inflight := [.awaitGen ⟨1, none⟩ ∅] }

/-- Scheduler trace refuting single-flight across a reset: a level change
arrives while the first session's generation request is still outstanding,
and the reset itself clears the fetch flag and starts a second request. -/
def c1Trace : List GEvent := [.levelChange 1, .levelChange 2]

/-- Scheduler trace in which the first session's fetch passes its staleness
check, is superseded during the media-gate await, and is then pushed into
the second session's queue: mount at level 1, generation resolves, level
changes to 2, the new session's own fetch completes and is served, then the
stale media gate resolves. -/
def c2Trace : List GEvent :=
  [.levelChange 1, .genOk 0 sampleQA ["s1"], .levelChange 2,
   .genOk 1 sampleQB ["s2"], .gateResolve 1 [], .gateResolve 0 []]

/-- Scheduler trace in which the second session fills its buffer to the
target of 4 while a stale media-gate pass from the first session is still
outstanding; when that pass resolves, the buffer reaches 5. -/
def c3Trace : List GEvent :=
  [.levelChange 1, .genOk 0 sampleQA ["s1"], .levelChange 2,
   .genOk 1 sampleQB ["s2"], .gateResolve 1 [], .timeoutFire 0,
   .genOk 1 sampleQB ["s2"], .gateResolve 1 [], .timeoutFire 0,
   .genOk 1 sampleQB ["s2"], .gateResolve 1 [], .timeoutFire 0,
   .genOk 1 sampleQB ["s2"], .gateResolve 1 [], .timeoutFire 0,
   .genOk 1 sampleQB ["s2"], .gateResolve 1 [], .gateResolve 0 []]

/-- Scheduler trace in which the first fetch succeeds and its item is served
as the current question, and the chained timeout's fetch then fails with an
empty buffer: the failure handler consults the closure-captured current
question (still empty from the mount render) and surfaces the error even
though the live current question is non-empty. -/
def c7Trace : List GEvent :=
  [.levelChange 1, .genOk 0 sampleQA ["s1"], .gateResolve 0 [],
   .timeoutFire 0, .genFail 0]

/-! ### Helper lemmas -/

theorem inv_initState : Inv initState := by
  refine ⟨rfl, ?_, ?_⟩ <;> simp [initState, BUFFER_TARGET]

theorem inflight_singleton {α : Type} {l : List α} {i : Nat} {f : α}
    (hlen : l.length ≤ 1) (hget : l[i]? = some f) : l = [f] ∧ i = 0 := by
  match l, i with
  | [], i => simp at hget
  | [a], 0 =>
    simp at hget
    simp [hget]
  | [a], j + 1 => simp at hget
  | a :: b :: t, _ => simp at hlen

theorem inv_fillBufferStart {s : GState} (h : Inv s) (clos : FillClos) :
    Inv (fillBufferStart s clos) := by
  obtain ⟨h1, h2, h3⟩ := h
  unfold fillBufferStart
  split
  · exact ⟨h1, h2, h3⟩
  · rename_i hguard
    push_neg at hguard
    obtain ⟨hb, hf⟩ := hguard
    have hfe : s.isFetching = false := by
      cases hfetch : s.isFetching
      · rfl
      · exact absurd hfetch hf
    have hinf : s.inflight = [] := by
      rw [hfe] at h1
      cases hlist : s.inflight
      · rfl
      · rw [hlist] at h1; simp at h1
    refine ⟨?_, ?_, ?_⟩ <;> simp [hinf]
    unfold BUFFER_TARGET at hb ⊢
    omega

theorem inv_step {s : GState} {e : GEvent} (h : Inv s) (hs : eventSafe s e = true) :
    Inv (step s e) := by
  obtain ⟨h1, h2, h3⟩ := h
  cases e with
  | startFill clos => exact inv_fillBufferStart ⟨h1, h2, h3⟩ clos
  | genOk i q seeds =>
    simp only [step, stepGenOk]
    split
    · rename_i clos snap heq
      obtain ⟨hl, hi⟩ := inflight_singleton h2 heq
      subst hi
      rw [hl] at h1 h3 ⊢
      simp at h1 h3
      split
      · refine ⟨?_, ?_, ?_⟩ <;> simp <;> omega
      · refine ⟨?_, ?_, ?_⟩ <;> simp [h1] <;> omega
    · exact ⟨h1, h2, h3⟩
  | genFail i =>
    simp only [step, stepGenFail]
    split
    · rename_i clos snap heq
      obtain ⟨hl, hi⟩ := inflight_singleton h2 heq
      subst hi
      rw [hl] at h3 ⊢
      simp at h3
      refine ⟨?_, ?_, ?_⟩ <;> simp [finallyStep] <;> omega
    · exact ⟨h1, h2, h3⟩
  | gateResolve i outcomes =>
    simp only [step, stepGateResolve]
    split
    · rename_i clos prep heq
      obtain ⟨hl, hi⟩ := inflight_singleton h2 heq
      subst hi
      rw [hl] at h3 ⊢
      simp at h3
      split
      · split
        · refine ⟨?_, ?_, ?_⟩ <;> simp [finallyStep, hl] <;> omega
        · refine ⟨?_, ?_, ?_⟩ <;> simp [finallyStep, hl] <;> omega
      · refine ⟨?_, ?_, ?_⟩ <;> simp [finallyStep, hl] <;> omega
    · exact ⟨h1, h2, h3⟩
  | timeoutFire i =>
    simp only [step, stepTimeoutFire]
    split
    · refine inv_fillBufferStart ?_ _
      exact ⟨h1, h2, h3⟩
    · exact ⟨h1, h2, h3⟩
  | levelChange l =>
    simp only [eventSafe, List.isEmpty_iff] at hs
    simp only [step, stepLevelChange]
    refine inv_fillBufferStart ⟨?_, ?_, ?_⟩ _ <;> simp [hs]
  | consumePop =>
    simp only [step, stepConsumePop]
    split <;> refine ⟨h1, h2, ?_⟩ <;> simp_all <;> omega
  | retryFill clos =>
    simp only [step, stepRetryFill]
    refine inv_fillBufferStart ?_ _
    exact ⟨h1, h2, h3⟩

theorem inv_run {s : GState} {tr : List GEvent} (h : Inv s) (hs : safeRun s tr = true) :
    Inv (run s tr) := by
  induction tr generalizing s with
  | nil => exact h
  | cons e es ih =>
    simp only [safeRun, Bool.and_eq_true] at hs
    exact ih (inv_step h hs.1) hs.2

theorem correctWordAdd_subset (q : LetterQuestion) (used : Finset String) :
    used ⊆ correctWordAdd q used := by
  unfold correctWordAdd
  split
  · split
    · exact Finset.Subset.refl _
    · exact Finset.subset_insert _ _
  · exact Finset.Subset.refl _

theorem usedWords_subset_step {s : GState} {e : GEvent} (h : isLevelChange e = false) :
    s.usedWords ⊆ (step s e).usedWords := by
  cases e with
  | startFill clos =>
    simp only [step, fillBufferStart]
    split <;> exact Finset.Subset.refl _
  | genOk i q seeds =>
    simp only [step, stepGenOk]
    split
    · split
      · exact Finset.Subset.refl _
      · exact correctWordAdd_subset q s.usedWords
    · exact Finset.Subset.refl _
  | genFail i =>
    simp only [step, stepGenFail]
    split
    · simp only [finallyStep]
      exact Finset.Subset.refl _
    · exact Finset.Subset.refl _
  | gateResolve i outcomes =>
    simp only [step, stepGateResolve]
    split
    · split
      · split <;> · simp only [finallyStep]; exact Finset.Subset.refl _
      · simp only [finallyStep]; exact Finset.Subset.refl _
    · exact Finset.Subset.refl _
  | timeoutFire i =>
    simp only [step, stepTimeoutFire]
    split
    · simp only [fillBufferStart]
      split <;> exact Finset.Subset.refl _
    · exact Finset.Subset.refl _
  | levelChange l => simp [isLevelChange] at h
  | consumePop =>
    simp only [step, stepConsumePop]
    split <;> exact Finset.Subset.refl _
  | retryFill clos =>
    simp only [step, stepRetryFill, fillBufferStart]
    split <;> exact Finset.Subset.refl _

theorem genRequests_step {s : GState} {e : GEvent} (h : isLevelChange e = false) :
    (step s e).genRequests = s.genRequests ∨
      (step s e).genRequests = s.genRequests ++ [s.usedWords] := by
  cases e with
  | startFill clos =>
    simp only [step, fillBufferStart]
    split
    · exact Or.inl rfl
    · exact Or.inr rfl
  | genOk i q seeds =>
    simp only [step, stepGenOk]
    split
    · split
      · exact Or.inl rfl
      · exact Or.inl rfl
    · exact Or.inl rfl
  | genFail i =>
    simp only [step, stepGenFail]
    split
    · exact Or.inl rfl
    · exact Or.inl rfl
  | gateResolve i outcomes =>
    simp only [step, stepGateResolve]
    split
    · split
      · split
        · exact Or.inl rfl
        · exact Or.inl rfl
      · exact Or.inl rfl
    · exact Or.inl rfl
  | timeoutFire i =>
    simp only [step, stepTimeoutFire]
    split
    · simp only [fillBufferStart]
      split
      · exact Or.inl rfl
      · exact Or.inr rfl
    · exact Or.inl rfl
  | levelChange l => simp [isLevelChange] at h
  | consumePop =>
    simp only [step, stepConsumePop]
    split
    · exact Or.inl rfl
    · exact Or.inl rfl
  | retryFill clos =>
    simp only [step, stepRetryFill, fillBufferStart]
    split
    · exact Or.inl rfl
    · exact Or.inr rfl

theorem run_append (s : GState) (t1 t2 : List GEvent) :
    run s (t1 ++ t2) = run (run s t1) t2 := by
  induction t1 generalizing s with
  | nil => rfl
  | cons e es ih =>
    simp only [List.cons_append, run]
    exact ih _

theorem inSession_cons {e : GEvent} {es : List GEvent} (h : inSession (e :: es) = true) :
    isLevelChange e = false ∧ inSession es = true := by
  simp only [inSession, List.all_cons, Bool.and_eq_true, Bool.not_eq_eq_eq_not,
    Bool.not_true] at h
  exact ⟨h.1, h.2⟩

theorem usedWords_subset_run {s : GState} {tr : List GEvent} (h : inSession tr = true) :
    s.usedWords ⊆ (run s tr).usedWords := by
  induction tr generalizing s with
  | nil => exact Finset.Subset.refl _
  | cons e es ih =>
    obtain ⟨he, hes⟩ := inSession_cons h
    exact (usedWords_subset_step he).trans (ih hes)

theorem snapLog_run {s : GState} {tr : List GEvent} (h : inSession tr = true)
    (hp : s.genRequests.Pairwise (· ⊆ ·))
    (hb : ∀ g ∈ s.genRequests, g ⊆ s.usedWords) :
    (run s tr).genRequests.Pairwise (· ⊆ ·) ∧
      ∀ g ∈ (run s tr).genRequests, g ⊆ (run s tr).usedWords := by
  induction tr generalizing s with
  | nil => exact ⟨hp, hb⟩
  | cons e es ih =>
    obtain ⟨he, hes⟩ := inSession_cons h
    have hmono := usedWords_subset_step (s := s) (e := e) he
    rcases genRequests_step (s := s) (e := e) he with heq | heq
    · exact ih hes (heq ▸ hp) (fun g hg => ((heq ▸ hg : g ∈ s.genRequests) |> hb g).trans hmono)
    · refine ih hes ?_ ?_
      · rw [heq]
        refine List.pairwise_append.mpr ⟨hp, List.pairwise_singleton _ _, ?_⟩
        intro a ha b hbm
        simp only [List.mem_singleton] at hbm
        subst hbm
        exact hb a ha
      · rw [heq]
        intro g hg
        rcases List.mem_append.mp hg with hg | hg
        · exact (hb g hg).trans hmono
        · simp only [List.mem_singleton] at hg
          subst hg
          exact hmono

theorem genRequests_mem_run {w : String} {s : GState} {tr : List GEvent}
    {G : List (Finset String)} (h : inSession tr = true) (hw : w ∈ s.usedWords)
    (hG : ∀ g ∈ s.genRequests, g ∈ G ∨ w ∈ g) :
    ∀ g ∈ (run s tr).genRequests, g ∈ G ∨ w ∈ g := by
  induction tr generalizing s with
  | nil => exact hG
  | cons e es ih =>
    obtain ⟨he, hes⟩ := inSession_cons h
    refine ih hes (usedWords_subset_step he hw) ?_
    rcases genRequests_step (s := s) (e := e) he with heq | heq
    · rw [heq]; exact hG
    · rw [heq]
      intro g hg
      rcases List.mem_append.mp hg with hg | hg
      · exact hG g hg
      · simp only [List.mem_singleton] at hg
        subst hg
        exact Or.inr hw

theorem selRun_frozen {s : SelState} {tr : List SelEvent}
    (h1 : s.selected.isSome = true) (h2 : s.pendingWrongClear = false) :
    selRun s tr = s := by
  induction tr with
  | nil => rfl
  | cons e es ih =>
    have hstep : selStep s e = s := by
      cases e with
      | select i =>
        simp only [selStep, handleSelect]
        cases hq : s.currentQ with
        | none => rfl
        | some q =>
          cases hsel : s.selected with
          | none => rw [hsel] at h1; simp at h1
          | some j => rfl
      | clearFire =>
        simp only [selStep, wrongClearFire, h2]
        simp
    simp only [selRun, hstep, ih]

theorem selRun_counts {s : SelState} (tr : List SelEvent)
    (h0 : s.completeCalls = 0)
    (hpend : s.pendingWrongClear = true → s.selected.isSome = true) :
    (selRun s tr).completeCalls = cond (effectiveCorrect s tr) 1 0 := by
  induction tr generalizing s with
  | nil => simpa [selRun, effectiveCorrect] using h0
  | cons e es ih =>
    cases e with
    | clearFire =>
      simp only [selRun, effectiveCorrect, selectHit, Bool.false_or, selStep,
        wrongClearFire]
      split
      · rename_i hp
        exact ih (s := { s with selected := none, pendingWrongClear := false }) h0
          (by intro h; simp at h)
      · exact ih h0 hpend
    | select i =>
      simp only [selRun, effectiveCorrect, selStep]
      cases hq : s.currentQ with
      | none =>
        simp only [handleSelect, hq, selectHit, Bool.false_or]
        exact ih h0 hpend
      | some q =>
        cases hsel : s.selected with
        | some j =>
          simp only [handleSelect, hq, hsel, selectHit, Bool.false_or]
          exact ih h0 hpend
        | none =>
          cases hopt : q.data.options[i]? with
          | none =>
            simp only [handleSelect, hq, hsel, hopt, selectHit, Bool.false_or]
            exact ih h0 hpend
          | some opt =>
            have hpf : s.pendingWrongClear = false := by
              cases hpw : s.pendingWrongClear
              · rfl
              · have := hpend hpw
                rw [hsel] at this
                simp at this
            simp only [handleSelect, hq, hsel, hopt, selectHit]
            split
            · rename_i hcor
              simp only [hcor, Bool.true_or, cond_true]
              rw [selRun_frozen (by simp) (by simpa using hpf)]
              simpa using h0
            · rename_i hcor
              have hc : opt.isCorrect = false := by simpa using hcor
              simp only [hc, Bool.false_or]
              exact ih (s := ⟨some q, some i, true, s.completeCalls⟩) h0 (by intro _; simp)

theorem promiseAll_preload (outcomes : List LoadOutcome) :
    promiseAll (outcomes.map preloadImage) = .ok (outcomes.map fun _ => ()) := by
  induction outcomes with
  | nil => rfl
  | cons o os ih =>
    cases o <;> simp only [List.map_cons, preloadImage, promiseAll, ih]

theorem zipWith_getElem? {α β γ : Type} (f : α → β → γ) :
    ∀ (as : List α) (bs : List β) (i : Nat),
      (List.zipWith f as bs)[i]? =
        match as[i]?, bs[i]? with
        | some a, some b => some (f a b)
        | _, _ => none := by
  intro as
  induction as with
  | nil => intro bs i; simp
  | cons a at_ ih =>
    intro bs i
    cases bs with
    | nil => simp
    | cons b bt =>
      cases i with
      | zero => simp
      | succ j => simpa using ih bt j

theorem correctWordAdd_mem {q : LetterQuestion} {opt : LetterOption}
    (hfind : q.options.find? (fun o => o.isCorrect) = some opt)
    (hword : opt.word ≠ "") (used : Finset String) :
    opt.word ∈ correctWordAdd q used ∧
      correctWordAdd q used = insert opt.word used := by
  unfold correctWordAdd
  rw [hfind]
  simp only [Option.map_some']
  rw [if_neg hword]
  exact ⟨Finset.mem_insert_self _ _, rfl⟩

theorem correctWordAdd_of_no_correct {q : LetterQuestion}
    (hnone : ∀ o ∈ q.options, o.isCorrect = false) (used : Finset String) :
    correctWordAdd q used = used := by
  unfold correctWordAdd
  rw [List.find?_eq_none.mpr fun o ho => by simp [hnone o ho]]
  rfl

theorem stepGenOk_live {s : GState} {i : Nat} {clos : FillClos} {snap : Finset String}
    (q : LetterQuestion) (seeds : List String)
    (hget : s.inflight[i]? = some (.awaitGen clos snap))
    (hlive : s.activeLevel = clos.level) :
    step s (.genOk i q seeds) =
      { s with usedWords := correctWordAdd q s.usedWords,
               inflight := s.inflight.set i (.awaitGate clos ⟨q, seeds⟩) } := by
  simp only [step, stepGenOk, hget]
  rw [if_neg (by simp [hlive])]

theorem stepGate_serves {s : GState} {i : Nat} {clos : FillClos}
    {prep : PreparedQuestion} (outcomes : List LoadOutcome)
    (hget : s.inflight[i]? = some (.awaitGate clos prep)) :
    prep ∈ (step s (.gateResolve i outcomes)).buffer ∨
      (step s (.gateResolve i outcomes)).currentQ = some prep := by
  simp only [step, stepGateResolve, hget, promiseAll_preload]
  cases hq : s.currentQ with
  | some c =>
    simp only [hq, finallyStep]
    exact Or.inl (List.mem_append_right _ (List.mem_singleton.mpr rfl))
  | none =>
    cases hb : s.buffer with
    | nil => simp [hq, hb, finallyStep]
    | cons b bs =>
      simp only [hq, hb, finallyStep, List.cons_append, List.head?_cons, List.tail_cons]
      exact Or.inl (List.mem_append_right _ (List.mem_singleton.mpr rfl))

theorem stepGate_effects {s : GState} {i : Nat} {clos : FillClos}
    {prep : PreparedQuestion} (outcomes : List LoadOutcome)
    (hget : s.inflight[i]? = some (.awaitGate clos prep)) :
    (step s (.gateResolve i outcomes)).errorFlag = s.errorFlag ∧
      (step s (.gateResolve i outcomes)).usedWords = s.usedWords ∧
      step s (.gateResolve i outcomes) = step s (.gateResolve i []) := by
  simp only [step, stepGateResolve, hget, promiseAll_preload]
  cases hq : s.currentQ with
  | some c => simp [hq, finallyStep, promiseAll]
  | none => simp [hq, finallyStep, promiseAll]


/-! ### Claim theorems -/

/-- C1 (counterexample): the claim says the fetch flag is cleared only when
a generation-plus-gate pass completes or fails, and that at most one
Content Source request is ever outstanding, including across a session
reset that occurs while a fetch is outstanding.  On the trace that mounts
at level 1 and changes level while the first generation request is still
outstanding, the reset effect itself clears the flag (GameLetters.tsx line
59) and immediately starts a second request, so two generation requests are
outstanding at once. -/
theorem c1_reset_counterexample :
    outstandingGen (run initState c1Trace) = 2 ∧
      (run initState c1Trace).isFetching = true := by decide

/-- C1 (amended): in every execution in which no session reset happens while
a fetch pass is in flight, at most one Content Source request is outstanding
at any point, the fetch flag is set exactly while a pass is in flight, and a
fill call made while the flag is set returns immediately without starting a
request.  (A reset that does happen mid-fetch clears the flag itself and
permits a second concurrent request, as the counterexample shows.) -/
theorem c1_single_flight (tr : List GEvent) (h : safeRun initState tr = true) :
    outstandingGen (run initState tr) ≤ 1 ∧
      ((run initState tr).isFetching = true ↔ (run initState tr).inflight ≠ []) ∧
      ∀ clos, (run initState tr).isFetching = true →
        step (run initState tr) (.startFill clos) = run initState tr := by
  obtain ⟨h1, h2, h3⟩ := inv_run inv_initState h
  refine ⟨le_trans (List.length_filter_le _ _) h2, ?_, ?_⟩
  · rw [h1]
    cases hl : (run initState tr).inflight <;> simp [hl]
  · intro clos hf
    simp only [step, fillBufferStart]
    rw [if_pos (Or.inr hf)]

theorem c1_single_flight_witness :
    safeRun initState [GEvent.levelChange 1] = true ∧
      (outstandingGen (run initState [GEvent.levelChange 1]) ≤ 1 ∧
        ((run initState [GEvent.levelChange 1]).isFetching = true ↔
          (run initState [GEvent.levelChange 1]).inflight ≠ []) ∧
        ∀ clos, (run initState [GEvent.levelChange 1]).isFetching = true →
          step (run initState [GEvent.levelChange 1]) (.startFill clos) =
            run initState [GEvent.levelChange 1]) :=
  ⟨by decide, c1_single_flight [GEvent.levelChange 1] (by decide)⟩

/-- C2 (counterexample): the claim says the coordinator re-validates
liveness after the media gate resolves, so a stale fetch's item never
appears in the new session's ready queue.  On `c2Trace` the first session's
fetch passes its (generation-time) staleness check, the level then changes
to 2 while the fetch is suspended at the media gate, and when the gate
resolves the item is pushed with no further liveness check: the final state
is in session 2 yet its ready queue holds the item generated for
session 1. -/
theorem c2_stale_push_counterexample :
    (run initState c2Trace).activeLevel = 2 ∧
      (run initState c2Trace).buffer = [⟨sampleQA, ["s1"]⟩] := by decide

/-- C2 (amended): liveness is re-validated when the *generation call*
resolves, not after the media gate: if the session was superseded while the
generation request was outstanding, the result is discarded silently —
no queue mutation, no exclusion-set mutation, no current-item change, no
rescheduling — and the fetch flag is cleared.  (A fetch superseded *during
the media gate* is not re-validated and its item is pushed into the new
session's queue, per the counterexample; the new session's exclusion set is
unaffected in both cases.) -/
theorem c2_stale_discard (s : GState) (i : Nat) (clos : FillClos) (snap : Finset String)
    (q : LetterQuestion) (seeds : List String)
    (hget : s.inflight[i]? = some (.awaitGen clos snap))
    (hstale : s.activeLevel ≠ clos.level) :
    (step s (.genOk i q seeds)).buffer = s.buffer ∧
      (step s (.genOk i q seeds)).usedWords = s.usedWords ∧
      (step s (.genOk i q seeds)).currentQ = s.currentQ ∧
      (step s (.genOk i q seeds)).genRequests = s.genRequests ∧
      (step s (.genOk i q seeds)).timeouts = s.timeouts ∧
      (step s (.genOk i q seeds)).isFetching = false := by
  simp only [step, stepGenOk, hget]
  rw [if_pos hstale]
  exact ⟨rfl, rfl, rfl, rfl, rfl, rfl⟩

theorem c2_stale_discard_witness :
    staleGenState.inflight[0]? = some (.awaitGen ⟨1, none⟩ ∅) ∧
      staleGenState.activeLevel ≠ FillClos.level ⟨1, none⟩ ∧
      ((step staleGenState (.genOk 0 sampleQA ["s1"])).buffer = staleGenState.buffer ∧
        (step staleGenState (.genOk 0 sampleQA ["s1"])).usedWords = staleGenState.usedWords ∧
        (step staleGenState (.genOk 0 sampleQA ["s1"])).currentQ = staleGenState.currentQ ∧
        (step staleGenState (.genOk 0 sampleQA ["s1"])).genRequests = staleGenState.genRequests ∧
        (step staleGenState (.genOk 0 sampleQA ["s1"])).timeouts = staleGenState.timeouts ∧
        (step staleGenState (.genOk 0 sampleQA ["s1"])).isFetching = false) :=
  ⟨by decide, by decide,
    c2_stale_discard staleGenState 0 ⟨1, none⟩ ∅ sampleQA ["s1"] (by decide) (by decide)⟩

/-- C3 (counterexample): the claim says the ready queue never exceeds
K = `BUFFER_TARGET` = 4 at any observable point of any execution.  On
`c3Trace`, the second session fills its queue to 4 while a media-gate pass
of the superseded first session is still outstanding; when that stale pass
resolves it pushes a fifth item, so the queue reaches length 5. -/
theorem c3_overflow_counterexample :
    (run initState c3Trace).buffer.length = 5 := by decide

/-- C3 (amended): in every execution in which no session reset happens while
a fetch pass is in flight, the ready queue never exceeds
`BUFFER_TARGET` = 4: a fetch starts only when the queue is below target,
each successful pass pushes exactly one item, and pops only shrink the
queue.  (A reset mid-fetch can let a stale pass push a fifth item, per the
counterexample.) -/
theorem c3_bounded_buffer (tr : List GEvent) (h : safeRun initState tr = true) :
    (run initState tr).buffer.length ≤ BUFFER_TARGET := by
  obtain ⟨h1, h2, h3⟩ := inv_run inv_initState h
  omega

theorem c3_bounded_buffer_witness :
    safeRun initState c7Trace = true ∧
      (run initState c7Trace).buffer.length ≤ BUFFER_TARGET :=
  ⟨by decide, c3_bounded_buffer c7Trace (by decide)⟩

/-- C4: the code's target correct-count is 1: each correct selection fires
`onComplete(true)` once (lines 168-192) and the parent's
`handleGameComplete` treats that single signal as session completion and
unmounts the game, so `targetCorrect = N = 1` in this code.  Over every
interleaving of taps and wrong-answer-timeout firings, the completion
signal is emitted exactly once, on the first effective correct selection
(`advance(true)`), and never before any correct selection; interleaved
wrong selections (`advance(false)`) never emit it. -/
theorem c4_completion_exactness (q : PreparedQuestion) (tr : List SelEvent) :
    (selRun (selInit q) tr).completeCalls = cond (effectiveCorrect (selInit q) tr) 1 0 :=
  selRun_counts tr rfl (by intro h; simp [selInit] at h)

/-- C5: within one session (no level change), the exclusion set never
shrinks, and the snapshots passed to successive Content Source generation
calls are non-decreasing: each later generation request's exclusion
snapshot contains every earlier one (hence has at least its size). -/
theorem c5_monotonic_exclusion (tr : List GEvent) (h : inSession tr = true) :
    (run initState tr).genRequests.Pairwise (fun a b => a ⊆ b ∧ a.card ≤ b.card) ∧
      ∀ t1 t2, tr = t1 ++ t2 →
        (run initState t1).usedWords ⊆ (run initState tr).usedWords := by
  constructor
  · have hp := (snapLog_run (s := initState) h List.Pairwise.nil (by simp [initState])).1
    exact hp.imp fun hab => ⟨hab, Finset.card_le_card hab⟩
  · intro t1 t2 heq
    subst heq
    rw [run_append]
    have h2 : inSession t2 = true := by
      simp only [inSession, List.all_append, Bool.and_eq_true] at h
      exact h.2
    exact usedWords_subset_run h2

theorem c5_monotonic_exclusion_witness :
    inSession [GEvent.startFill ⟨0, none⟩, GEvent.genOk 0 sampleQA ["s1"],
        GEvent.gateResolve 0 [], GEvent.timeoutFire 0] = true ∧
      ((run initState [GEvent.startFill ⟨0, none⟩, GEvent.genOk 0 sampleQA ["s1"],
          GEvent.gateResolve 0 [], GEvent.timeoutFire 0]).genRequests.Pairwise
          (fun a b => a ⊆ b ∧ a.card ≤ b.card) ∧
        ∀ t1 t2, [GEvent.startFill ⟨0, none⟩, GEvent.genOk 0 sampleQA ["s1"],
            GEvent.gateResolve 0 [], GEvent.timeoutFire 0] = t1 ++ t2 →
          (run initState t1).usedWords ⊆
            (run initState [GEvent.startFill ⟨0, none⟩, GEvent.genOk 0 sampleQA ["s1"],
              GEvent.gateResolve 0 [], GEvent.timeoutFire 0]).usedWords) :=
  ⟨by decide,
    c5_monotonic_exclusion [GEvent.startFill ⟨0, none⟩, GEvent.genOk 0 sampleQA ["s1"],
      GEvent.gateResolve 0 [], GEvent.timeoutFire 0] (by decide)⟩

/-- C6 (counterexample): the claim says that on every successful generation
the item's correct-answer key is extracted and added to the exclusion set.
For an item whose correct option's word is the empty string, the key is
extracted (`find` succeeds and yields `""`) but the JavaScript truthiness
guard `if (correctWord)` skips the add, leaving the exclusion set unchanged
while the item still proceeds to the media gate. -/
theorem c6_empty_word_counterexample :
    (sampleQE.options.find? (fun o => o.isCorrect)).map (fun o => o.word) = some "" ∧
      (step genPendingState (.genOk 0 sampleQE ["s1"])).usedWords = ∅ ∧
      (step genPendingState (.genOk 0 sampleQE ["s1"])).inflight[0]? =
        some (.awaitGate ⟨1, none⟩ ⟨sampleQE, ["s1"]⟩) := by decide

/-- C6 (amended): on every successful generation that survives the
staleness check and whose item has a correct option with a *non-empty*
word, that word is added to the exclusion set before the media gate runs
and before the item is enqueued (the pass is still suspended at the gate
and the queue is untouched), and the snapshot of every generation request
issued later in the same session — in particular the immediately following
one of the same refill burst — contains it.  (When the correct word is the
empty string, or no option is marked correct, the truthiness guard skips
the add, per the counterexample.) -/
theorem c6_speculative_exclusion (s : GState) (i : Nat) (clos : FillClos)
    (snap : Finset String) (q : LetterQuestion) (seeds : List String) (opt : LetterOption)
    (hget : s.inflight[i]? = some (.awaitGen clos snap))
    (hlive : s.activeLevel = clos.level)
    (hfind : q.options.find? (fun o => o.isCorrect) = some opt)
    (hword : opt.word ≠ "") :
    opt.word ∈ (step s (.genOk i q seeds)).usedWords ∧
      (step s (.genOk i q seeds)).buffer = s.buffer ∧
      (step s (.genOk i q seeds)).inflight[i]? = some (.awaitGate clos ⟨q, seeds⟩) ∧
      ∀ tr, inSession tr = true →
        ∀ g ∈ (run (step s (.genOk i q seeds)) tr).genRequests,
          g ∈ s.genRequests ∨ opt.word ∈ g := by
  have hlt : i < s.inflight.length := (List.getElem?_eq_some.mp hget).1
  rw [stepGenOk_live q seeds hget hlive]
  obtain ⟨hmem, hins⟩ := correctWordAdd_mem hfind hword s.usedWords
  refine ⟨hmem, rfl, List.getElem?_set_eq_of_lt _ hlt, ?_⟩
  intro tr htr
  exact genRequests_mem_run htr hmem (fun g hg => Or.inl hg)

theorem c6_speculative_exclusion_witness :
    genPendingState.inflight[0]? = some (.awaitGen ⟨1, none⟩ ∅) ∧
      genPendingState.activeLevel = FillClos.level ⟨1, none⟩ ∧
      sampleQA.options.find? (fun o => o.isCorrect) = some ⟨"apple", true, "an apple"⟩ ∧
      LetterOption.word ⟨"apple", true, "an apple"⟩ ≠ "" ∧
      (LetterOption.word ⟨"apple", true, "an apple"⟩ ∈
          (step genPendingState (.genOk 0 sampleQA ["s1"])).usedWords ∧
        (step genPendingState (.genOk 0 sampleQA ["s1"])).buffer = genPendingState.buffer ∧
        (step genPendingState (.genOk 0 sampleQA ["s1"])).inflight[0]? =
          some (.awaitGate ⟨1, none⟩ ⟨sampleQA, ["s1"]⟩) ∧
        ∀ tr, inSession tr = true →
          ∀ g ∈ (run (step genPendingState (.genOk 0 sampleQA ["s1"])) tr).genRequests,
            g ∈ genPendingState.genRequests ∨
              LetterOption.word ⟨"apple", true, "an apple"⟩ ∈ g) :=
  ⟨by decide, by decide, by decide, by decide,
    c6_speculative_exclusion genPendingState 0 ⟨1, none⟩ ∅ sampleQA ["s1"]
      ⟨"apple", true, "an apple"⟩ (by decide) (by decide) (by decide) (by decide)⟩

/-- C7 (counterexample): the claim says an ERROR status is surfaced iff
both the ready queue and the current item are empty.  On `c7Trace` the
first fetch succeeds and its item becomes the current question; the chained
timeout re-invokes the same `fillBuffer` closure (whose captured `currentQ`
is still the mount render's `null`), its fetch fails with an empty buffer,
and the handler surfaces the error — even though the live current item is
non-empty. -/
theorem c7_error_counterexample :
    (run initState c7Trace).errorFlag = true ∧
      (run initState c7Trace).currentQ = some ⟨sampleQA, ["s1"]⟩ := by decide

/-- C7 (amended): when a generation request fails, the fetch flag is
cleared and the queue, exclusion set and live current item are untouched;
the ERROR status is surfaced if and only if the ready queue is empty *and
the current item captured by the failing fill closure at its creating
render* is empty — the live current item is not consulted (its own comment
at lines 118-120 notes the closure cannot be trusted), per the
counterexample. -/
theorem c7_failure_handling (s : GState) (i : Nat) (clos : FillClos) (snap : Finset String)
    (hget : s.inflight[i]? = some (.awaitGen clos snap)) :
    (step s (.genFail i)).isFetching = false ∧
      (step s (.genFail i)).errorFlag
        = (s.errorFlag || (s.buffer.isEmpty && clos.currentQ.isNone)) ∧
      (step s (.genFail i)).buffer = s.buffer ∧
      (step s (.genFail i)).usedWords = s.usedWords ∧
      (step s (.genFail i)).currentQ = s.currentQ := by
  simp [step, stepGenFail, hget, finallyStep]

theorem c7_failure_handling_witness :
    genPendingState.inflight[0]? = some (.awaitGen ⟨1, none⟩ ∅) ∧
      ((step genPendingState (.genFail 0)).isFetching = false ∧
        (step genPendingState (.genFail 0)).errorFlag
          = (genPendingState.errorFlag ||
              (genPendingState.buffer.isEmpty && Option.isNone (FillClos.currentQ ⟨1, none⟩))) ∧
        (step genPendingState (.genFail 0)).buffer = genPendingState.buffer ∧
        (step genPendingState (.genFail 0)).usedWords = genPendingState.usedWords ∧
        (step genPendingState (.genFail 0)).currentQ = genPendingState.currentQ) :=
  ⟨by decide, c7_failure_handling genPendingState 0 ⟨1, none⟩ ∅ (by decide)⟩

/-- C8: the media gate over one item's option resources yields exactly one
completion signal — a single resolution carrying one result per reference —
once every reference has loaded or failed; an individual resource failure
never rejects the gate (`preloadImage` resolves on `onerror` too), the
item is never blocked or dropped (after the gate the item is in the queue
or has been served as the current question), no error is surfaced, and the
resulting state does not depend on the individual outcomes at all. -/
theorem c8_media_gate (s : GState) (i : Nat) (clos : FillClos) (prep : PreparedQuestion)
    (outcomes : List LoadOutcome)
    (hget : s.inflight[i]? = some (.awaitGate clos prep)) :
    promiseAll (outcomes.map preloadImage) = .ok (outcomes.map fun _ => ()) ∧
      (prep ∈ (step s (.gateResolve i outcomes)).buffer ∨
        (step s (.gateResolve i outcomes)).currentQ = some prep) ∧
      (step s (.gateResolve i outcomes)).errorFlag = s.errorFlag ∧
      step s (.gateResolve i outcomes) = step s (.gateResolve i []) := by
  obtain ⟨he, hu, hirr⟩ := stepGate_effects outcomes hget
  exact ⟨promiseAll_preload outcomes, stepGate_serves outcomes hget, he, hirr⟩

theorem c8_media_gate_witness :
    gatePendingState.inflight[0]? = some (.awaitGate ⟨1, none⟩ ⟨sampleQA, ["s1"]⟩) ∧
      (promiseAll ([LoadOutcome.failed, LoadOutcome.loaded].map preloadImage)
          = .ok ([LoadOutcome.failed, LoadOutcome.loaded].map fun _ => ()) ∧
        ((⟨sampleQA, ["s1"]⟩ : PreparedQuestion) ∈
            (step gatePendingState (.gateResolve 0 [.failed, .loaded])).buffer ∨
          (step gatePendingState (.gateResolve 0 [.failed, .loaded])).currentQ
            = some ⟨sampleQA, ["s1"]⟩) ∧
        (step gatePendingState (.gateResolve 0 [.failed, .loaded])).errorFlag
          = gatePendingState.errorFlag ∧
        step gatePendingState (.gateResolve 0 [.failed, .loaded])
          = step gatePendingState (.gateResolve 0 [])) :=
  ⟨by decide,
    c8_media_gate gatePendingState 0 ⟨1, none⟩ ⟨sampleQA, ["s1"]⟩
      [.failed, .loaded] (by decide)⟩

/-- C9: when a generated item has no option marked correct, the speculative
add is skipped (the exclusion set is unchanged by that fetch) and the item
nevertheless proceeds: the pass moves on to the media gate holding the
prepared item, and once the gate resolves the item is enqueued or served as
the current question — the pipeline neither fails nor skips it. -/
theorem c9_no_correct_option (s : GState) (i : Nat) (clos : FillClos) (snap : Finset String)
    (q : LetterQuestion) (seeds : List String)
    (hget : s.inflight[i]? = some (.awaitGen clos snap))
    (hlive : s.activeLevel = clos.level)
    (hnone : ∀ o ∈ q.options, o.isCorrect = false) :
    (step s (.genOk i q seeds)).usedWords = s.usedWords ∧
      (step s (.genOk i q seeds)).inflight[i]? = some (.awaitGate clos ⟨q, seeds⟩) ∧
      ((⟨q, seeds⟩ : PreparedQuestion) ∈
          (step (step s (.genOk i q seeds)) (.gateResolve i [])).buffer ∨
        (step (step s (.genOk i q seeds)) (.gateResolve i [])).currentQ
          = some ⟨q, seeds⟩) := by
  have hlt : i < s.inflight.length := (List.getElem?_eq_some.mp hget).1
  rw [stepGenOk_live q seeds hget hlive]
  have hset : (s.inflight.set i (.awaitGate clos ⟨q, seeds⟩))[i]? =
      some (.awaitGate clos ⟨q, seeds⟩) := List.getElem?_set_eq_of_lt _ hlt
  exact ⟨correctWordAdd_of_no_correct hnone s.usedWords, hset, stepGate_serves [] hset⟩

theorem c9_no_correct_option_witness :
    genPendingState.inflight[0]? = some (.awaitGen ⟨1, none⟩ ∅) ∧
      genPendingState.activeLevel = FillClos.level ⟨1, none⟩ ∧
      (∀ o ∈ sampleQN.options, o.isCorrect = false) ∧
      ((step genPendingState (.genOk 0 sampleQN ["s1"])).usedWords
          = genPendingState.usedWords ∧
        (step genPendingState (.genOk 0 sampleQN ["s1"])).inflight[0]? =
          some (.awaitGate ⟨1, none⟩ ⟨sampleQN, ["s1"]⟩) ∧
        ((⟨sampleQN, ["s1"]⟩ : PreparedQuestion) ∈
            (step (step genPendingState (.genOk 0 sampleQN ["s1"]))
              (.gateResolve 0 [])).buffer ∨
          (step (step genPendingState (.genOk 0 sampleQN ["s1"]))
              (.gateResolve 0 [])).currentQ = some ⟨sampleQN, ["s1"]⟩)) :=
  ⟨by decide, by decide, by decide,
    c9_no_correct_option genPendingState 0 ⟨1, none⟩ ∅ sampleQN ["s1"]
      (by decide) (by decide) (by decide)⟩

/-- C10: the per-option seeds are generated once at preparation time and
stored in the `PreparedQuestion`; the URL rendered for any option index of
a prepared item is exactly the URL that was preloaded for that option —
both sites apply the same `getImageUrl` to the option's prompt and the
stored seed, for every encoding function. -/
theorem c10_url_identity (enc : String → String) (q : LetterQuestion)
    (seeds : List String) (idx : Nat) :
    renderImageSrc enc ⟨q, seeds⟩ idx = (preloadUrls enc q seeds)[idx]? := by
  unfold renderImageSrc preloadUrls
  rw [zipWith_getElem?]
  rcases ho : q.options[idx]? with _ | opt <;> rcases hs : seeds[idx]? with _ | sd <;>
    simp [ho, hs]

end KRIAA
